import Mathlib

/-!
# noggit3: render-pass ordering, terrain stripification, BLP compression format

Shallow embedding of

* `ModelRenderPass::operator<` and `enum BlendModes` (`src/noggit/Model.h`),
* `stripify` / `stripify2` and their size constants (`src/MapTile.h`),
* `blp_texture::loadFromCompressedData` (`src/noggit/TextureManager.cpp`),

followed by the properties proved about them.

Conventions of the embedding:

* fixed-width integers (`int16_t`, `uint16_t`, `int`, `uint8_t`) are `Int`/`Nat`; the modelled
  code only compares them or masks them, so no wrap-around arises;
* a C++ `float` is a `FloatVal`: only its comparison behaviour is used;
* `*out++ = v` on an output pointer appends `v` to the list of elements written so far, so
  the length of that list is the distance the pointer has advanced.
-/

namespace Noggit

/-! ## `float` values under comparison -/

/-- Value of a C++ `float` as the comparison operators see it: a NaN, one of the two
infinities, or a finite number (every finite float is a rational; `+0` and `-0` are both
the rational `0`, as they compare equal). -/
inductive FloatVal where
  | nan : FloatVal
  | negInf : FloatVal
  | finite (q : ℚ) : FloatVal
  | posInf : FloatVal
deriving DecidableEq

namespace FloatVal

/-- The value is a NaN (not an ordinary number). -/
def isNaN : FloatVal → Bool
  | nan => true
  | _ => false

/-- IEEE-754 `x < y`: false as soon as one side is a NaN. -/
def lt : FloatVal → FloatVal → Bool
  | nan, _ => false
  | _, nan => false
  | negInf, negInf => false
  | negInf, _ => true
  | finite _, negInf => false
  | finite a, finite b => decide (a < b)
  | finite _, posInf => true
  | posInf, _ => false

/-- IEEE-754 `x <= y`: false as soon as one side is a NaN. -/
def le : FloatVal → FloatVal → Bool
  | nan, _ => false
  | _, nan => false
  | negInf, _ => true
  | finite _, negInf => false
  | finite a, finite b => decide (a ≤ b)
  | finite _, posInf => true
  | posInf, posInf => true
  | posInf, _ => false

end FloatVal

/-! ## `Model.h`: blend modes and render passes -/

/-- The `enum BlendModes` of `Model.h`. -/
inductive BlendModes where
  | BM_OPAQUE
  | BM_TRANSPARENT
  | BM_ALPHA_BLEND
  | BM_ADDITIVE
  | BM_ADDITIVE_ALPHA
  | BM_MODULATE
  | BM_MODULATE2
deriving DecidableEq, Repr

/-- Integer value of an enumerator: unscoped C++ enumerators count up from `0`. -/
def BlendModes.toInt : BlendModes → Int
  | BM_OPAQUE => 0
  | BM_TRANSPARENT => 1
  | BM_ALPHA_BLEND => 2
  | BM_ADDITIVE => 3
  | BM_ADDITIVE_ALPHA => 4
  | BM_MODULATE => 5
  | BM_MODULATE2 => 6

/-- The type `math::vector_4d`: four floats. -/
structure Vector4d where
  x : FloatVal
  y : FloatVal
  z : FloatVal
  w : FloatVal
deriving DecidableEq

/-- The data members of `struct ModelRenderPass`. -/
structure ModelRenderPass where
  indexStart : Nat
  indexCount : Nat
  vertexStart : Nat
  vertexEnd : Nat
  tex : Int
  usetex2 : Bool
  useenvmap : Bool
  cull : Bool
  trans : Bool
  unlit : Bool
  nozwrite : Bool
  billboard : Bool
  p : FloatVal
  texanim : Int
  color : Int
  opacity : Int
  blendmode : Int
  order : Int
  geoset : Int
  swrap : Bool
  twrap : Bool
  ocol : Vector4d
  ecol : Vector4d
deriving DecidableEq

/-- The member `bool ModelRenderPass::operator< (const ModelRenderPass &m) const`. -/
def ModelRenderPass.lt (self m : ModelRenderPass) : Bool :=
  if self.order < m.order then true
  else if self.order > m.order then false
  else if self.blendmode = m.blendmode then FloatVal.lt self.p m.p
  else decide (self.blendmode < m.blendmode)

/-- The sort key `(order, blendmode, p)` of a pass. -/
def ModelRenderPass.sortKey (a : ModelRenderPass) : Int × Int × FloatVal :=
  (a.order, a.blendmode, a.p)

/-- Lexicographic "less than" on sort keys, every component ascending, written from the
description of the ordering rather than from the code. -/
def keyLexLt (k l : Int × Int × FloatVal) : Bool :=
  decide (k.1 < l.1)
    || (decide (k.1 = l.1) && decide (k.2.1 < l.2.1))
    || (decide (k.1 = l.1) && decide (k.2.1 = l.2.1) && FloatVal.lt k.2.2 l.2.2)

/-- A list of passes is sorted for `operator<`: no later element compares less than an
earlier one. -/
def SortedPasses (l : List ModelRenderPass) : Prop :=
  l.Pairwise (fun x y => ModelRenderPass.lt y x = false)

/-! ## `MapTile.h`: triangle strips of a map chunk -/

/-- The loop `for (int i = lo; i < hi; i++) body`, threading the state `s` through the
iterations in increasing order of `i`. -/
def forLoop {σ : Type} (lo hi : Nat) (body : Nat → σ → σ) (s : σ) : σ :=
  (List.range' lo (hi - lo)).foldl (fun acc i => body i acc) s

/-- The constant `const int stripsize = 8*18 + 7*2;`. -/
def stripsize : Int := 8 * 18 + 7 * 2

/-- The body of the row loop of `stripify`, run for row `row` on the output written so far.

`indexMapBuf` is declared in `MapTile.h` but defined elsewhere, so it is a parameter.
`inp i` is `in[i]`; `out` is the list of elements already written through the output pointer
and the result is that list after the iteration. -/
def stripifyRow {V : Type} (indexMapBuf : Int → Int → Int) (inp : Int → V) (row : Nat)
    (out : List V) : List V :=
  let thisrow : Int → V := fun i => inp (indexMapBuf 0 ((row : Int) * 2) + i)
  let nextrow : Int → V := fun i => inp (indexMapBuf 0 (((row : Int) + 1) * 2) + i)
  let out := if row > 0 then out ++ [thisrow 0] else out
  let out := forLoop 0 9 (fun col out =>
    let out := out ++ [thisrow col]
    let out := out ++ [nextrow col]
    out) out
  let out := if row < 7 then out ++ [nextrow 8] else out
  out

/-- The template `void stripify(V *in, V *out)`: the row loop over `row = 0..7`. -/
def stripify {V : Type} (indexMapBuf : Int → Int → Int) (inp : Int → V) (out : List V) :
    List V :=
  forLoop 0 8 (stripifyRow indexMapBuf inp) out

/-- The constant `const int stripsize2 = 16*18 + 7*2 + 8*2;`. -/
def stripsize2 : Int := 16 * 18 + 7 * 2 + 8 * 2

/-- The body of the row loop of `stripify2` (high resolution version), with the same
conventions as `stripifyRow`. -/
def stripify2Row {V : Type} (indexMapBuf : Int → Int → Int) (inp : Int → V) (row : Nat)
    (out : List V) : List V :=
  let thisrow : Int → V := fun i => inp (indexMapBuf 0 ((row : Int) * 2) + i)
  let nextrow : Int → V := fun i => inp (indexMapBuf 0 ((row : Int) * 2 + 1) + i)
  let overrow : Int → V := fun i => inp (indexMapBuf 0 (((row : Int) + 1) * 2) + i)
  let out := if row > 0 then out ++ [thisrow 0] else out
  let out := forLoop 0 8 (fun col out =>
    let out := out ++ [thisrow col]
    let out := out ++ [nextrow col]
    out) out
  let out := out ++ [thisrow 8]
  let out := out ++ [overrow 8]
  let out := out ++ [overrow 8]
  let out := out ++ [thisrow 0]
  let out := out ++ [thisrow 0]
  let out := forLoop 0 8 (fun col out =>
    let out := out ++ [overrow col]
    let out := out ++ [nextrow col]
    out) out
  let out := if row < 8 then out ++ [overrow 8] else out
  let out := if row < 7 then out ++ [overrow 8] else out
  out

/-- The template `void stripify2(V *in, V *out)`: the row loop over `row = 0..7`. -/
def stripify2 {V : Type} (indexMapBuf : Int → Int → Int) (inp : Int → V) (out : List V) :
    List V :=
  forLoop 0 8 (stripify2Row indexMapBuf inp) out

/-- What row `row` of `stripify` contributes, written from the description of the strip:
an extra copy of `thisrow[0]` unless it is the first row, the 18 interleaved elements
`thisrow[col], nextrow[col]` for `col = 0..8`, and an extra copy of `nextrow[8]` unless it is
the last row. -/
def stripRow {V : Type} (indexMapBuf : Int → Int → Int) (inp : Int → V) (row : Nat) : List V :=
  let thisrow : Int → V := fun i => inp (indexMapBuf 0 (2 * (row : Int)) + i)
  let nextrow : Int → V := fun i => inp (indexMapBuf 0 (2 * (row : Int) + 2) + i)
  (if 0 < row then [thisrow 0] else [])
    ++ ((List.range 9).map (fun (col : Nat) => [thisrow (col : Int), nextrow (col : Int)])).flatten
    ++ (if row < 7 then [nextrow 8] else [])

/-- The whole strip of `stripify` as the concatenation of its 8 rows. -/
def stripRows {V : Type} (indexMapBuf : Int → Int → Int) (inp : Int → V) : List V :=
  ((List.range 8).map (stripRow indexMapBuf inp)).flatten

/-- What row `row` of `stripify2` contributes, part by part: the optional leading element,
the first 8-column interleaved loop, the five joining elements, the second 8-column
interleaved loop, the element guarded by `row < 8` and the one guarded by `row < 7`. -/
def strip2Row {V : Type} (indexMapBuf : Int → Int → Int) (inp : Int → V) (row : Nat) : List V :=
  let thisrow : Int → V := fun i => inp (indexMapBuf 0 (2 * (row : Int)) + i)
  let nextrow : Int → V := fun i => inp (indexMapBuf 0 (2 * (row : Int) + 1) + i)
  let overrow : Int → V := fun i => inp (indexMapBuf 0 (2 * (row : Int) + 2) + i)
  (if 0 < row then [thisrow 0] else [])
    ++ ((List.range 8).map (fun (col : Nat) => [thisrow (col : Int), nextrow (col : Int)])).flatten
    ++ [thisrow 8, overrow 8, overrow 8, thisrow 0, thisrow 0]
    ++ ((List.range 8).map (fun (col : Nat) => [overrow (col : Int), nextrow (col : Int)])).flatten
    ++ (if row < 8 then [overrow 8] else [])
    ++ (if row < 7 then [overrow 8] else [])

/-- The whole strip of `stripify2` as the concatenation of its 8 rows. -/
def strip2Rows {V : Type} (indexMapBuf : Int → Int → Int) (inp : Int → V) : List V :=
  ((List.range 8).map (strip2Row indexMapBuf inp)).flatten

/-- Number of elements `stripify2` writes in row `row`, counted part by part: the optional
leading element, the first 8-column interleaved loop, the five joining elements, the second
8-column interleaved loop, the element guarded by `row < 8` and the one guarded by
`row < 7`. -/
def strip2RowCount (row : Nat) : Nat :=
  (if row > 0 then 1 else 0) + 8 * 2 + 5 + 8 * 2 + (if row < 8 then 1 else 0)
    + (if row < 7 then 1 else 0)

/-! ## `TextureManager.cpp`: compressed BLP textures -/

/-- OpenGL enumerator of `EXT_texture_compression_s3tc` (from the OpenGL headers). -/
def GL_COMPRESSED_RGB_S3TC_DXT1_EXT : Int := 0x83F0

/-- OpenGL enumerator of `EXT_texture_compression_s3tc` (from the OpenGL headers). -/
def GL_COMPRESSED_RGBA_S3TC_DXT1_EXT : Int := 0x83F1

/-- OpenGL enumerator of `EXT_texture_compression_s3tc` (from the OpenGL headers). -/
def GL_COMPRESSED_RGBA_S3TC_DXT3_EXT : Int := 0x83F2

/-- OpenGL enumerator of `EXT_texture_compression_s3tc` (from the OpenGL headers). -/
def GL_COMPRESSED_RGBA_S3TC_DXT5_EXT : Int := 0x83F3

/-- The packed `struct BLPHeader`; the `uint8_t` attributes are naturals. -/
structure BLPHeader where
  magix : Int
  version : Int
  attr_0_compression : Nat
  attr_1_alphadepth : Nat
  attr_2_alphatype : Nat
  attr_3_mipmaplevels : Nat
  resx : Int
  resy : Int
  offsets : Fin 16 → Int
  sizes : Fin 16 → Int

/-- The members of `blp_texture` that `loadFromCompressedData` assigns: the compression
format and, per mipmap level, the bytes of that level once they have been stored. -/
structure blp_texture where
  _compression_format : Int
  _compressed_data : Nat → Option (List Nat)

/-- The local table `alphatypes[]` of `loadFromCompressedData`, read at an index `0..3`. -/
def alphatypes (i : Fin 4) : Int :=
  [GL_COMPRESSED_RGB_S3TC_DXT1_EXT, GL_COMPRESSED_RGBA_S3TC_DXT3_EXT, 0,
    GL_COMPRESSED_RGBA_S3TC_DXT5_EXT].get i

/-- The mipmap loop of `loadFromCompressedData`, from level `i` on: a level with a nonzero
offset and a nonzero size is stored as the bytes `lData[offset .. offset + size)`, and the
first level without them ends the function. -/
def loadMipmapsFrom (lHeader : BLPHeader) (lData : Int → Nat) (i : Nat) (t : blp_texture) :
    blp_texture :=
  if h : i < 16 then
    if lHeader.offsets ⟨i, h⟩ ≠ 0 ∧ lHeader.sizes ⟨i, h⟩ ≠ 0 then
      let start : Int := lHeader.offsets ⟨i, h⟩
      let level : List Nat :=
        (List.range (lHeader.sizes ⟨i, h⟩).toNat).map (fun k => lData (start + (k : Int)))
      loadMipmapsFrom lHeader lData (i + 1)
        { t with _compressed_data := fun j => if j = i then some level else t._compressed_data j }
    else
      t
  else
    t
termination_by 16 - i

/-- The member `void blp_texture::loadFromCompressedData(BLPHeader const*, char const*)`;
`lData k` is the byte `lData[k]`. -/
def loadFromCompressedData (t : blp_texture) (lHeader : BLPHeader) (lData : Int → Nat) :
    blp_texture :=
  let alpha_type : Nat := lHeader.attr_2_alphatype &&& 3
  let format : Int := alphatypes ⟨alpha_type, Nat.lt_succ_of_le Nat.and_le_right⟩
  let t := { t with _compression_format :=
    if format = GL_COMPRESSED_RGB_S3TC_DXT1_EXT then
      (if lHeader.attr_1_alphadepth = 1 then GL_COMPRESSED_RGBA_S3TC_DXT1_EXT
        else GL_COMPRESSED_RGB_S3TC_DXT1_EXT)
    else format }
  loadMipmapsFrom lHeader lData 0 t

/-! ## Concrete inputs used below -/

/-- A pass with the given sort key and every other member zero or false. -/
def mkPass (order blendmode : Int) (p : FloatVal) : ModelRenderPass :=
  { indexStart := 0, indexCount := 0, vertexStart := 0, vertexEnd := 0, tex := 0,
    usetex2 := false, useenvmap := false, cull := false, trans := false, unlit := false,
    nozwrite := false, billboard := false, p := p, texanim := 0, color := 0, opacity := 0,
    blendmode := blendmode, order := order, geoset := 0, swrap := false, twrap := false,
    ocol := ⟨.finite 0, .finite 0, .finite 0, .finite 0⟩,
    ecol := ⟨.finite 0, .finite 0, .finite 0, .finite 0⟩ }

/-- A BLP header with the given alpha depth and alpha type and no mipmap level. -/
def mkHeader (alphadepth alphatype : Nat) : BLPHeader :=
  { magix := 0, version := 1, attr_0_compression := 2, attr_1_alphadepth := alphadepth,
    attr_2_alphatype := alphatype, attr_3_mipmaplevels := 0, resx := 0, resy := 0,
    offsets := fun _ => 0, sizes := fun _ => 0 }

/-- A texture on which nothing has been loaded yet. -/
def emptyTexture : blp_texture :=
  { _compression_format := 0, _compressed_data := fun _ => none }

/-! ## Helper lemmas on `FloatVal` -/

theorem floatLt_irrefl (x : FloatVal) : FloatVal.lt x x = false := by
  cases x <;> simp [FloatVal.lt]

theorem floatLt_trans {x y z : FloatVal} (h₁ : FloatVal.lt x y = true)
    (h₂ : FloatVal.lt y z = true) : FloatVal.lt x z = true := by
  cases x <;> cases y <;> cases z <;> simp_all [FloatVal.lt]
  exact lt_trans h₁ h₂

theorem floatLt_false_iff_le {x y : FloatVal} (hx : x.isNaN = false) (hy : y.isNaN = false) :
    FloatVal.lt y x = false ↔ FloatVal.le x y = true := by
  cases x <;> cases y <;> simp_all [FloatVal.lt, FloatVal.le, FloatVal.isNaN]

theorem floatLt_trichotomy {x y : FloatVal} (hx : x.isNaN = false) (hy : y.isNaN = false) :
    (FloatVal.lt x y = false ∧ FloatVal.lt y x = false) ↔ x = y := by
  cases x <;> cases y <;> simp_all [FloatVal.lt, FloatVal.isNaN]
  exact le_antisymm_iff.symm.trans eq_comm

/-! ## Helper lemmas on `operator<` -/

theorem passLt_iff (a b : ModelRenderPass) :
    a.lt b = true ↔
      (a.order < b.order ∨ (a.order = b.order ∧ a.blendmode < b.blendmode)
        ∨ (a.order = b.order ∧ a.blendmode = b.blendmode ∧ FloatVal.lt a.p b.p = true)) := by
  unfold ModelRenderPass.lt
  rcases lt_trichotomy a.order b.order with h | h | h
  · simp [h, h.ne]
  · by_cases hb : a.blendmode = b.blendmode <;> simp [h, hb]
  · simp [h, h.ne', not_lt.mpr h.le]

theorem passLt_false_iff (a b : ModelRenderPass) :
    a.lt b = false ↔
      (b.order < a.order ∨ (a.order = b.order ∧ b.blendmode < a.blendmode)
        ∨ (a.order = b.order ∧ a.blendmode = b.blendmode ∧ FloatVal.lt a.p b.p = false)) := by
  unfold ModelRenderPass.lt
  rcases lt_trichotomy a.order b.order with h | h | h
  · simp [h, h.ne, not_lt.mpr h.le]
  · rcases lt_trichotomy a.blendmode b.blendmode with hb | hb | hb
    · simp [h, hb, hb.ne, not_lt.mpr hb.le]
    · simp [h, hb]
    · simp [h, hb, hb.ne', not_lt.mpr hb.le]
  · simp [h, h.ne', not_lt.mpr h.le]

theorem passes_incomparable_iff (a b : ModelRenderPass) (ha : a.p.isNaN = false)
    (hb : b.p.isNaN = false) :
    (a.lt b = false ∧ b.lt a = false) ↔
      (a.order = b.order ∧ a.blendmode = b.blendmode ∧ a.p = b.p) := by
  constructor
  · rintro ⟨h₁, h₂⟩
    rw [passLt_false_iff] at h₁ h₂
    rcases h₁ with h₁ | ⟨e, h₁⟩ | ⟨e, e', h₁⟩
    · rcases h₂ with h₂ | ⟨e₂, _⟩ | ⟨e₂, _⟩ <;> omega
    · rcases h₂ with h₂ | ⟨_, h₂⟩ | ⟨_, e₂, _⟩ <;> omega
    · rcases h₂ with h₂ | ⟨_, h₂⟩ | ⟨_, _, h₂⟩
      · omega
      · omega
      · exact ⟨e, e', (floatLt_trichotomy ha hb).mp ⟨h₁, h₂⟩⟩
  · rintro ⟨e, e', ep⟩
    have hp := (floatLt_trichotomy ha hb).mpr ep
    exact ⟨(passLt_false_iff a b).mpr (Or.inr (Or.inr ⟨e, e', hp.1⟩)),
      (passLt_false_iff b a).mpr (Or.inr (Or.inr ⟨e.symm, e'.symm, hp.2⟩))⟩

theorem passLt_asymm (a b : ModelRenderPass) (h : a.lt b = true) : b.lt a = false := by
  rw [passLt_iff] at h
  rw [passLt_false_iff]
  rcases h with h | ⟨e, h⟩ | ⟨e, e', h⟩
  · exact Or.inl h
  · exact Or.inr (Or.inl ⟨e.symm, h⟩)
  · refine Or.inr (Or.inr ⟨e.symm, e'.symm, ?_⟩)
    cases hlt : FloatVal.lt b.p a.p
    · rfl
    · have := floatLt_trans h hlt
      rw [floatLt_irrefl] at this
      exact absurd this (by simp)

theorem passLt_trans (a b c : ModelRenderPass) (h₁ : a.lt b = true) (h₂ : b.lt c = true) :
    a.lt c = true := by
  rw [passLt_iff] at h₁ h₂ ⊢
  rcases h₁ with h₁ | ⟨e₁, h₁⟩ | ⟨e₁, f₁, h₁⟩ <;>
    rcases h₂ with h₂ | ⟨e₂, h₂⟩ | ⟨e₂, f₂, h₂⟩
  · exact Or.inl (by omega)
  · exact Or.inl (by omega)
  · exact Or.inl (by omega)
  · exact Or.inl (by omega)
  · exact Or.inr (Or.inl ⟨by omega, by omega⟩)
  · exact Or.inr (Or.inl ⟨by omega, by omega⟩)
  · exact Or.inl (by omega)
  · exact Or.inr (Or.inl ⟨by omega, by omega⟩)
  · exact Or.inr (Or.inr ⟨by omega, by omega, floatLt_trans h₁ h₂⟩)

/-! ## Render-pass ordering -/

/-- C1: `ModelRenderPass::operator<` is exactly the lexicographic comparison on the key
`(order, blendmode, p)`, each component ascending; it is a function of the two keys alone,
so no other member of a pass influences the result. -/
theorem lt_is_lexicographic_on_key (a b : ModelRenderPass) :
    (a.lt b = true ↔
      (a.order < b.order ∨ (a.order = b.order ∧ a.blendmode < b.blendmode)
        ∨ (a.order = b.order ∧ a.blendmode = b.blendmode ∧ FloatVal.lt a.p b.p = true)))
    ∧ a.lt b = keyLexLt a.sortKey b.sortKey := by
  refine ⟨passLt_iff a b, ?_⟩
  rw [Bool.eq_iff_iff, passLt_iff]
  simp [keyLexLt, ModelRenderPass.sortKey, and_assoc, or_assoc]

/-- C2: on passes whose `p` is an ordinary number (not a NaN), `operator<` is a strict weak
ordering: irreflexive, transitive, and with a transitive incomparability relation. -/
theorem lt_strict_weak_order (a b c : ModelRenderPass) (ha : a.p.isNaN = false)
    (hb : b.p.isNaN = false) (hc : c.p.isNaN = false) :
    a.lt a = false
    ∧ (a.lt b = true → b.lt c = true → a.lt c = true)
    ∧ ((a.lt b = false ∧ b.lt a = false) → (b.lt c = false ∧ c.lt b = false) →
        (a.lt c = false ∧ c.lt a = false)) := by
  refine ⟨?_, passLt_trans a b c, ?_⟩
  · exact ((passes_incomparable_iff a a ha ha).mpr ⟨rfl, rfl, rfl⟩).1
  · intro hab hbc
    rw [passes_incomparable_iff a b ha hb] at hab
    rw [passes_incomparable_iff b c hb hc] at hbc
    rw [passes_incomparable_iff a c ha hc]
    exact ⟨hab.1.trans hbc.1, hab.2.1.trans hbc.2.1, hab.2.2.trans hbc.2.2⟩

/-- Witness of C2: three distinct passes of one layer, each less than the next. -/
theorem lt_strict_weak_order_witness :
    (mkPass 0 0 (.finite 5)).p.isNaN = false
    ∧ (mkPass 0 3 (.finite 1)).p.isNaN = false
    ∧ (mkPass 0 3 (.finite 2)).p.isNaN = false
    ∧ (mkPass 0 0 (.finite 5)).lt (mkPass 0 3 (.finite 1)) = true
    ∧ (mkPass 0 3 (.finite 1)).lt (mkPass 0 3 (.finite 2)) = true
    ∧ (mkPass 0 0 (.finite 5)).lt (mkPass 0 3 (.finite 2)) = true :=
  have h₁ : (mkPass 0 0 (.finite 5)).lt (mkPass 0 3 (.finite 1)) = true := by
    simp [ModelRenderPass.lt, mkPass]
  have h₂ : (mkPass 0 3 (.finite 1)).lt (mkPass 0 3 (.finite 2)) = true := by
    simp [ModelRenderPass.lt, mkPass, FloatVal.lt]
  ⟨rfl, rfl, rfl, h₁, h₂,
    (lt_strict_weak_order (mkPass 0 0 (.finite 5)) (mkPass 0 3 (.finite 1))
      (mkPass 0 3 (.finite 2)) rfl rfl rfl).2.1 h₁ h₂⟩

/-- C3: within one layer (equal `order`) a `BM_OPAQUE` pass compares less than a pass of
any other blend mode of the enum, and not the other way round, whatever the two `p` are. -/
theorem opaque_before_blended (a b : ModelRenderPass) (m : BlendModes)
    (horder : a.order = b.order) (ha : a.blendmode = BlendModes.BM_OPAQUE.toInt)
    (hb : b.blendmode = m.toInt) (hm : m ≠ BlendModes.BM_OPAQUE) :
    a.lt b = true ∧ b.lt a = false := by
  have hpos : a.blendmode < b.blendmode := by
    rw [ha, hb]
    cases m <;> simp [BlendModes.toInt] at hm ⊢
  have h := (passLt_iff a b).mpr (Or.inr (Or.inl ⟨horder, hpos⟩))
  exact ⟨h, passLt_asymm a b h⟩

/-- Witness of C3: an opaque pass with a NaN `p` against an additive pass of the same
layer. -/
theorem opaque_before_blended_witness :
    (mkPass 2 0 .nan).order = (mkPass 2 3 .negInf).order
    ∧ (mkPass 2 0 .nan).blendmode = BlendModes.BM_OPAQUE.toInt
    ∧ (mkPass 2 3 .negInf).blendmode = BlendModes.BM_ADDITIVE.toInt
    ∧ (mkPass 2 0 .nan).lt (mkPass 2 3 .negInf) = true
    ∧ (mkPass 2 3 .negInf).lt (mkPass 2 0 .nan) = false :=
  ⟨rfl, rfl, rfl,
    opaque_before_blended (mkPass 2 0 .nan) (mkPass 2 3 .negInf) BlendModes.BM_ADDITIVE
      rfl rfl rfl (by decide)⟩

/-- C5: on passes whose `p` is an ordinary number, two passes are incomparable exactly when
their keys `(order, blendmode, p)` are equal; equivalently, when the keys differ exactly one
of `a < b` and `b < a` holds. -/
theorem ties_only_on_equal_keys (a b : ModelRenderPass) (ha : a.p.isNaN = false)
    (hb : b.p.isNaN = false) :
    ((a.lt b = false ∧ b.lt a = false) ↔
      (a.order = b.order ∧ a.blendmode = b.blendmode ∧ a.p = b.p))
    ∧ (a.sortKey ≠ b.sortKey → Xor' (a.lt b = true) (b.lt a = true)) := by
  refine ⟨passes_incomparable_iff a b ha hb, ?_⟩
  intro hne
  have hinc : ¬ (a.lt b = false ∧ b.lt a = false) := by
    rw [passes_incomparable_iff a b ha hb]
    rintro ⟨e, e', ep⟩
    exact hne (by simp [ModelRenderPass.sortKey, e, e', ep])
  cases hab : a.lt b
  · cases hba : b.lt a
    · exact absurd ⟨hab, hba⟩ hinc
    · exact Or.inr ⟨rfl, by simp⟩
  · exact Or.inl ⟨rfl, by simp [passLt_asymm a b hab]⟩

/-- Witness of C5: two passes differing only in `p`; the one with the smaller `p` is less
and they are not incomparable. -/
theorem ties_only_on_equal_keys_witness :
    (mkPass 0 2 (.finite 1)).p.isNaN = false
    ∧ (mkPass 0 2 (.finite 3)).p.isNaN = false
    ∧ (mkPass 0 2 (.finite 1)).sortKey ≠ (mkPass 0 2 (.finite 3)).sortKey
    ∧ Xor' ((mkPass 0 2 (.finite 1)).lt (mkPass 0 2 (.finite 3)) = true)
        ((mkPass 0 2 (.finite 3)).lt (mkPass 0 2 (.finite 1)) = true) :=
  have hne : (mkPass 0 2 (.finite 1)).sortKey ≠ (mkPass 0 2 (.finite 3)).sortKey := by
    simp [ModelRenderPass.sortKey, mkPass]
  ⟨rfl, rfl, hne,
    (ties_only_on_equal_keys (mkPass 0 2 (.finite 1)) (mkPass 0 2 (.finite 3)) rfl rfl).2 hne⟩

/-- C4: along a list sorted for `operator<` the `order` values never decrease, among
elements of equal `order` the `blendmode` values never decrease, and among elements of equal
`order` and `blendmode` the `p` values never decrease (no later `p` is less than an earlier
one, which for ordinary numbers is `earlier <= later`). The passes `{order 0, BM_OPAQUE}`,
`{order 0, BM_ADDITIVE}`, `{order 1, BM_OPAQUE}`, with any `p` values and in any
arrangement, have exactly one sorted arrangement: that one. -/
theorem sorted_passes_keys_nondecreasing :
    (∀ l : List ModelRenderPass, SortedPasses l →
      l.Pairwise (fun x y =>
        x.order ≤ y.order
        ∧ (x.order = y.order → x.blendmode ≤ y.blendmode)
        ∧ (x.order = y.order → x.blendmode = y.blendmode →
            FloatVal.lt y.p x.p = false
            ∧ (x.p.isNaN = false → y.p.isNaN = false → FloatVal.le x.p y.p = true))))
    ∧ (∀ a b c : ModelRenderPass,
        a.order = 0 → a.blendmode = BlendModes.BM_OPAQUE.toInt →
        b.order = 0 → b.blendmode = BlendModes.BM_ADDITIVE.toInt →
        c.order = 1 → c.blendmode = BlendModes.BM_OPAQUE.toInt →
        SortedPasses [a, b, c]
        ∧ ∀ l : List ModelRenderPass, l.Perm [a, b, c] → SortedPasses l → l = [a, b, c]) := by
  constructor
  · intro l hl
    refine List.Pairwise.imp ?_ hl
    intro x y h
    rw [passLt_false_iff] at h
    rcases h with h | ⟨e, h⟩ | ⟨e, e', h⟩
    · exact ⟨h.le, fun e => by omega, fun e => by omega⟩
    · exact ⟨e.ge, fun _ => h.le, fun _ e' => by omega⟩
    · exact ⟨e.ge, fun _ => e'.ge, fun _ _ => ⟨h, fun hx hy => (floatLt_false_iff_le hx hy).mp h⟩⟩
  · intro a b c hao hab hbo hbb hco hcb
    simp only [BlendModes.toInt] at hab hbb hcb
    have lab : a.lt b = true := (passLt_iff a b).mpr (Or.inr (Or.inl ⟨by omega, by omega⟩))
    have lac : a.lt c = true := (passLt_iff a c).mpr (Or.inl (by omega))
    have lbc : b.lt c = true := (passLt_iff b c).mpr (Or.inl (by omega))
    have nba := passLt_asymm a b lab
    have nca := passLt_asymm a c lac
    have ncb := passLt_asymm b c lbc
    have hab' : a ≠ b := fun e => by rw [e] at hab; omega
    have hac' : a ≠ c := fun e => by rw [e] at hao; omega
    have hbc' : b ≠ c := fun e => by rw [e] at hbo; omega
    refine ⟨by simp [SortedPasses, nba, nca, ncb], ?_⟩
    intro l hperm hs
    obtain ⟨x, y, z, rfl⟩ := List.length_eq_three.mp hperm.length_eq
    have hnd : [x, y, z].Nodup := hperm.nodup_iff.mpr (by simp [hab', hac', hbc'])
    have hx : x ∈ [a, b, c] := hperm.subset (by simp)
    have hy : y ∈ [a, b, c] := hperm.subset (by simp)
    have hz : z ∈ [a, b, c] := hperm.subset (by simp)
    simp only [List.mem_cons, List.mem_singleton, List.not_mem_nil, or_false] at hx hy hz
    simp only [SortedPasses, List.pairwise_cons, List.mem_cons, List.mem_singleton,
      List.not_mem_nil, or_false, forall_eq_or_imp, forall_eq, List.Pairwise.nil,
      IsEmpty.forall_iff, implies_true, and_true] at hs
    simp only [List.nodup_cons, List.mem_cons, List.mem_singleton, List.not_mem_nil, or_false,
      not_or, List.nodup_nil, and_true, not_false_eq_true] at hnd
    obtain ⟨⟨hyx, hzx⟩, hzy⟩ := hs
    obtain ⟨⟨nxy, nxz⟩, nyz⟩ := hnd
    rcases hx with rfl | rfl | rfl <;> rcases hy with rfl | rfl | rfl <;>
      rcases hz with rfl | rfl | rfl <;> simp_all

/-- Witness of C4: the three passes of the example in a sorted list, and the arrangement
`[order1-OPAQUE, order0-OPAQUE, order0-ADDITIVE]` of them, which is not the sorted one. -/
theorem sorted_passes_keys_nondecreasing_witness :
    SortedPasses [mkPass 0 0 (.finite 7), mkPass 0 3 .nan, mkPass 1 0 (.finite 2)]
    ∧ [mkPass 0 0 (.finite 7), mkPass 0 3 .nan, mkPass 1 0 (.finite 2)].Pairwise
        (fun x y => x.order ≤ y.order)
    ∧ (∀ l : List ModelRenderPass,
        l.Perm [mkPass 0 0 (.finite 7), mkPass 0 3 .nan, mkPass 1 0 (.finite 2)] →
        SortedPasses l →
        l = [mkPass 0 0 (.finite 7), mkPass 0 3 .nan, mkPass 1 0 (.finite 2)]) :=
  have h := sorted_passes_keys_nondecreasing.2 (mkPass 0 0 (.finite 7)) (mkPass 0 3 .nan)
    (mkPass 1 0 (.finite 2)) rfl rfl rfl rfl rfl rfl
  ⟨h.1, (sorted_passes_keys_nondecreasing.1 _ h.1).imp (fun hxy => hxy.1), h.2⟩

/-! ## Helper lemmas on loops that only append -/

theorem foldl_append_eq {V : Type} (body : Nat → List V → List V) (g : Nat → List V)
    (hbody : ∀ i s, body i s = s ++ g i) (l : List Nat) (s : List V) :
    l.foldl (fun acc i => body i acc) s = s ++ (l.map g).flatten := by
  induction l generalizing s with
  | nil => simp
  | cons i l ih => rw [List.foldl_cons, ih, hbody]; simp

theorem forLoop_append_eq {V : Type} (lo hi : Nat) (body : Nat → List V → List V)
    (g : Nat → List V) (hbody : ∀ i s, body i s = s ++ g i) (s : List V) :
    forLoop lo hi body s = s ++ ((List.range' lo (hi - lo)).map g).flatten :=
  foldl_append_eq body g hbody _ s

theorem stripifyRow_eq {V : Type} (f : Int → Int → Int) (inp : Int → V) (row : Nat)
    (out : List V) : stripifyRow f inp row out = out ++ stripRow f inp row := by
  unfold stripifyRow stripRow
  simp only []
  rw [forLoop_append_eq 0 9 _
    (fun col => [inp (f 0 ((row : Int) * 2) + (col : Int)),
      inp (f 0 (((row : Int) + 1) * 2) + (col : Int))]) (by intro i s; simp)]
  have e1 : ((row : Int) + 1) * 2 = 2 * (row : Int) + 2 := by ring
  have e2 : (row : Int) * 2 = 2 * (row : Int) := by ring
  rw [e1, e2]
  rw [List.range_eq_range']
  by_cases h7 : row < 7 <;> by_cases hz : 0 < row <;> simp [h7, hz]

theorem stripify2Row_eq {V : Type} (f : Int → Int → Int) (inp : Int → V) (row : Nat)
    (out : List V) : stripify2Row f inp row out = out ++ strip2Row f inp row := by
  unfold stripify2Row strip2Row
  simp only []
  rw [forLoop_append_eq 0 8 _
    (fun col => [inp (f 0 (((row : Int) + 1) * 2) + (col : Int)),
      inp (f 0 ((row : Int) * 2 + 1) + (col : Int))]) (by intro i s; simp)]
  rw [forLoop_append_eq 0 8 _
    (fun col => [inp (f 0 ((row : Int) * 2) + (col : Int)),
      inp (f 0 ((row : Int) * 2 + 1) + (col : Int))]) (by intro i s; simp)]
  have e1 : ((row : Int) + 1) * 2 = 2 * (row : Int) + 2 := by ring
  have e2 : (row : Int) * 2 = 2 * (row : Int) := by ring
  rw [e1, e2]
  rw [List.range_eq_range']
  by_cases h7 : row < 7 <;> by_cases h8 : row < 8 <;> by_cases hz : 0 < row <;>
    simp [h7, h8, hz]

theorem length_flatten_map_pair {V : Type} (g h : Nat → V) (l : List Nat) :
    ((l.map (fun (col : Nat) => [g col, h col])).flatten).length = 2 * l.length := by
  induction l with
  | nil => rfl
  | cons a l ih => simp [ih]; omega

theorem stripRow_length {V : Type} (f : Int → Int → Int) (inp : Int → V) (row : Nat) :
    (stripRow f inp row).length
      = (if 0 < row then 1 else 0) + 18 + (if row < 7 then 1 else 0) := by
  unfold stripRow
  simp only [List.length_append, length_flatten_map_pair, List.length_range]
  by_cases h7 : row < 7 <;> by_cases hz : 0 < row <;> simp [h7, hz]

theorem strip2Row_length {V : Type} (f : Int → Int → Int) (inp : Int → V) (row : Nat) :
    (strip2Row f inp row).length = strip2RowCount row := by
  unfold strip2Row strip2RowCount
  simp only [List.length_append, length_flatten_map_pair, List.length_range]
  by_cases h7 : row < 7 <;> by_cases h8 : row < 8 <;> by_cases hz : 0 < row <;>
    simp [h7, h8, hz]

theorem stripRows_length {V : Type} (f : Int → Int → Int) (inp : Int → V) :
    (stripRows f inp).length = 158 := by
  unfold stripRows
  rw [List.length_flatten, List.map_map]
  have : (List.length ∘ stripRow f inp)
      = fun row => (if 0 < row then 1 else 0) + 18 + (if row < 7 then 1 else 0) := by
    funext row; exact stripRow_length f inp row
  rw [this]; decide

theorem strip2Rows_length {V : Type} (f : Int → Int → Int) (inp : Int → V) :
    (strip2Rows f inp).length = 318 := by
  unfold strip2Rows
  rw [List.length_flatten, List.map_map]
  have : (List.length ∘ strip2Row f inp) = strip2RowCount := by
    funext row; exact strip2Row_length f inp row
  rw [this]; decide

/-! ## Helper lemmas on `loadFromCompressedData` -/

theorem alphatypes_mk (k : Nat) (hk : k < 4) :
    alphatypes ⟨k, hk⟩
      = if k = 0 then GL_COMPRESSED_RGB_S3TC_DXT1_EXT
        else if k = 1 then GL_COMPRESSED_RGBA_S3TC_DXT3_EXT
        else if k = 2 then 0
        else GL_COMPRESSED_RGBA_S3TC_DXT5_EXT := by
  interval_cases k <;> rfl

theorem loadMipmapsFrom_format (lHeader : BLPHeader) (lData : Int → Nat) :
    ∀ (n i : Nat) (t : blp_texture), 16 - i = n →
      (loadMipmapsFrom lHeader lData i t)._compression_format = t._compression_format := by
  intro n
  induction n with
  | zero =>
    intro i t hi
    rw [loadMipmapsFrom, dif_neg (by omega)]
  | succ n ih =>
    intro i t hi
    rw [loadMipmapsFrom]
    split
    · split
      · rw [ih (i + 1) _ (by omega)]
      · rfl
    · rfl

theorem loadFromCompressedData_format (t : blp_texture) (lHeader : BLPHeader)
    (lData : Int → Nat) :
    (loadFromCompressedData t lHeader lData)._compression_format
      = if lHeader.attr_2_alphatype &&& 3 = 0 then
          (if lHeader.attr_1_alphadepth = 1 then GL_COMPRESSED_RGBA_S3TC_DXT1_EXT
            else GL_COMPRESSED_RGB_S3TC_DXT1_EXT)
        else if lHeader.attr_2_alphatype &&& 3 = 1 then GL_COMPRESSED_RGBA_S3TC_DXT3_EXT
        else if lHeader.attr_2_alphatype &&& 3 = 2 then 0
        else GL_COMPRESSED_RGBA_S3TC_DXT5_EXT := by
  unfold loadFromCompressedData
  simp only []
  rw [loadMipmapsFrom_format lHeader lData 16 0 _ rfl, alphatypes_mk]
  by_cases h0 : lHeader.attr_2_alphatype &&& 3 = 0
  · simp [h0]
  · by_cases h1 : lHeader.attr_2_alphatype &&& 3 = 1
    · simp [h1, GL_COMPRESSED_RGB_S3TC_DXT1_EXT, GL_COMPRESSED_RGBA_S3TC_DXT3_EXT]
    · by_cases h2 : lHeader.attr_2_alphatype &&& 3 = 2
      · simp [h2, GL_COMPRESSED_RGB_S3TC_DXT1_EXT]
      · simp [h0, h1, h2, GL_COMPRESSED_RGB_S3TC_DXT1_EXT, GL_COMPRESSED_RGBA_S3TC_DXT5_EXT]

/-! ## Compression format of a BLP texture -/

/-- C8: the compression format `loadFromCompressedData` leaves in the texture depends on the
header's alpha type only through its low two bits: `alphatype & 3 = 0` (as for 0) selects
DXT1, in its RGBA variant exactly when the alpha depth is 1 and its RGB variant otherwise,
`alphatype & 3 = 1` (as for 1) selects DXT3, `alphatype & 3 = 3` (as for 7) selects DXT5,
and `alphatype & 3 = 2` selects format 0. -/
theorem compression_format_from_low_two_bits (t : blp_texture) (lHeader : BLPHeader)
    (lData : Int → Nat) :
    (lHeader.attr_2_alphatype &&& 3 = 0 →
      ((loadFromCompressedData t lHeader lData)._compression_format
          = GL_COMPRESSED_RGBA_S3TC_DXT1_EXT ↔ lHeader.attr_1_alphadepth = 1)
      ∧ ((loadFromCompressedData t lHeader lData)._compression_format
          = GL_COMPRESSED_RGB_S3TC_DXT1_EXT ↔ lHeader.attr_1_alphadepth ≠ 1))
    ∧ (lHeader.attr_2_alphatype &&& 3 = 1 →
      (loadFromCompressedData t lHeader lData)._compression_format
        = GL_COMPRESSED_RGBA_S3TC_DXT3_EXT)
    ∧ (lHeader.attr_2_alphatype &&& 3 = 3 →
      (loadFromCompressedData t lHeader lData)._compression_format
        = GL_COMPRESSED_RGBA_S3TC_DXT5_EXT)
    ∧ (lHeader.attr_2_alphatype &&& 3 = 2 →
      (loadFromCompressedData t lHeader lData)._compression_format = 0)
    ∧ (lHeader.attr_2_alphatype = 0 →
      ((loadFromCompressedData t lHeader lData)._compression_format
          = GL_COMPRESSED_RGBA_S3TC_DXT1_EXT ↔ lHeader.attr_1_alphadepth = 1)
      ∧ ((loadFromCompressedData t lHeader lData)._compression_format
          = GL_COMPRESSED_RGB_S3TC_DXT1_EXT ↔ lHeader.attr_1_alphadepth ≠ 1))
    ∧ (lHeader.attr_2_alphatype = 1 →
      (loadFromCompressedData t lHeader lData)._compression_format
        = GL_COMPRESSED_RGBA_S3TC_DXT3_EXT)
    ∧ (lHeader.attr_2_alphatype = 7 →
      (loadFromCompressedData t lHeader lData)._compression_format
        = GL_COMPRESSED_RGBA_S3TC_DXT5_EXT)
    ∧ (∀ (t' : blp_texture) (lHeader' : BLPHeader) (lData' : Int → Nat),
        lHeader'.attr_2_alphatype &&& 3 = lHeader.attr_2_alphatype &&& 3 →
        lHeader'.attr_1_alphadepth = lHeader.attr_1_alphadepth →
        (loadFromCompressedData t' lHeader' lData')._compression_format
          = (loadFromCompressedData t lHeader lData)._compression_format) := by
  have h0 : lHeader.attr_2_alphatype &&& 3 = 0 →
      ((loadFromCompressedData t lHeader lData)._compression_format
          = GL_COMPRESSED_RGBA_S3TC_DXT1_EXT ↔ lHeader.attr_1_alphadepth = 1)
      ∧ ((loadFromCompressedData t lHeader lData)._compression_format
          = GL_COMPRESSED_RGB_S3TC_DXT1_EXT ↔ lHeader.attr_1_alphadepth ≠ 1) := by
    intro h
    rw [loadFromCompressedData_format, if_pos h]
    by_cases hd : lHeader.attr_1_alphadepth = 1 <;>
      simp [hd, GL_COMPRESSED_RGBA_S3TC_DXT1_EXT, GL_COMPRESSED_RGB_S3TC_DXT1_EXT]
  have h1 : lHeader.attr_2_alphatype &&& 3 = 1 →
      (loadFromCompressedData t lHeader lData)._compression_format
        = GL_COMPRESSED_RGBA_S3TC_DXT3_EXT := by
    intro h
    rw [loadFromCompressedData_format]; simp [h]
  have h3 : lHeader.attr_2_alphatype &&& 3 = 3 →
      (loadFromCompressedData t lHeader lData)._compression_format
        = GL_COMPRESSED_RGBA_S3TC_DXT5_EXT := by
    intro h
    rw [loadFromCompressedData_format]; simp [h]
  refine ⟨h0, h1, h3, ?_, fun h => h0 (by rw [h]; decide), fun h => h1 (by rw [h]; decide),
    fun h => h3 (by rw [h]; decide), ?_⟩
  · intro h
    rw [loadFromCompressedData_format]; simp [h]
  · intro t' lHeader' lData' h hd
    rw [loadFromCompressedData_format, loadFromCompressedData_format, h, hd]

/-- Witness of C8: the alpha types 7 and 3 share their low two bits, and both select DXT5. -/
theorem compression_format_from_low_two_bits_witness :
    (mkHeader 8 7).attr_2_alphatype &&& 3 = 3
    ∧ (loadFromCompressedData emptyTexture (mkHeader 8 7) (fun _ => 0))._compression_format
        = GL_COMPRESSED_RGBA_S3TC_DXT5_EXT
    ∧ (loadFromCompressedData emptyTexture (mkHeader 8 3) (fun _ => 0))._compression_format
        = (loadFromCompressedData emptyTexture (mkHeader 8 7) (fun _ => 0))._compression_format :=
  have h := compression_format_from_low_two_bits emptyTexture (mkHeader 8 7) (fun _ => 0)
  ⟨by decide, h.2.2.1 (by decide),
    h.2.2.2.2.2.2.2 emptyTexture (mkHeader 8 3) (fun _ => 0) (by decide) rfl⟩

/-! ## Stripification -/

/-- C6: `stripify` appends to the output exactly the 8 rows of the strip, each made of its
18 interleaved elements, preceded by an extra `thisrow[0]` except for the first row and
followed by an extra `nextrow[8]` except for the last; that is `stripsize = 8*18 + 7*2 = 158`
elements for every input, so the output pointer advances by exactly `stripsize`. -/
theorem stripify_writes_stripsize {V : Type} (indexMapBuf : Int → Int → Int) (inp : Int → V)
    (out : List V) :
    stripify indexMapBuf inp out = out ++ stripRows indexMapBuf inp
    ∧ ((stripify indexMapBuf inp out).length : Int) = (out.length : Int) + stripsize
    ∧ stripsize = 158
    ∧ (∀ row : Nat, (stripRow indexMapBuf inp row).length
        = (if 0 < row then 1 else 0) + 18 + (if row < 7 then 1 else 0))
    ∧ ((stripify indexMapBuf inp []).length : Int) = stripsize := by
  have h : ∀ o : List V, stripify indexMapBuf inp o = o ++ stripRows indexMapBuf inp := by
    intro o
    unfold stripify stripRows
    rw [forLoop_append_eq 0 8 _ (stripRow indexMapBuf inp) (stripifyRow_eq indexMapBuf inp),
      List.range_eq_range']
  have hs : stripsize = 158 := by decide
  refine ⟨h out, ?_, hs, stripRow_length indexMapBuf inp, ?_⟩
  · rw [h, List.length_append, stripRows_length, hs]; push_cast; rfl
  · rw [h, List.length_append, stripRows_length, hs]; rfl

/-- C7: `stripify2` appends to the output exactly its 8 rows, row `row` counting the optional
leading element (`row > 0`), the two 8-column interleaved loops, the five joining elements,
the element guarded by `row < 8` and the one guarded by `row < 7`; that is
`stripsize2 = 16*18 + 7*2 + 8*2 = 318` elements for every input, so the output pointer
advances by exactly `stripsize2`. -/
theorem stripify2_writes_stripsize2 {V : Type} (indexMapBuf : Int → Int → Int) (inp : Int → V)
    (out : List V) :
    stripify2 indexMapBuf inp out = out ++ strip2Rows indexMapBuf inp
    ∧ ((stripify2 indexMapBuf inp out).length : Int) = (out.length : Int) + stripsize2
    ∧ stripsize2 = 318
    ∧ (∀ (row : Nat) (o : List V),
        (stripify2Row indexMapBuf inp row o).length = o.length + strip2RowCount row)
    ∧ ((List.range 8).map strip2RowCount).sum = 318
    ∧ ((stripify2 indexMapBuf inp []).length : Int) = stripsize2 := by
  have h : ∀ o : List V, stripify2 indexMapBuf inp o = o ++ strip2Rows indexMapBuf inp := by
    intro o
    unfold stripify2 strip2Rows
    rw [forLoop_append_eq 0 8 _ (strip2Row indexMapBuf inp) (stripify2Row_eq indexMapBuf inp),
      List.range_eq_range']
  have hs : stripsize2 = 318 := by decide
  refine ⟨h out, ?_, hs, ?_, by decide, ?_⟩
  · rw [h, List.length_append, strip2Rows_length, hs]; push_cast; rfl
  · intro row o
    rw [stripify2Row_eq, List.length_append, strip2Row_length]
  · rw [h, List.length_append, strip2Rows_length, hs]; rfl

end Noggit
